import Mathlib

/-
Verification of the forecast-aggregation core of App.py (Real-Time-Weather-App).

The program reshapes a parsed JSON forecast (a list of 3-hourly observations)
into one summary row per calendar date.  The embedding below follows the
source line by line:

* `Json` models the values produced by `response.json()`: numbers (as
  rationals), strings, arrays and objects.
* `jget`, `jindex0`, `jnum` model Python subscription `it[k]`, `xs[0]` and the
  numeric requirement of `datetime.utcfromtimestamp` / the pandas numeric
  aggregations: each raises (returns `Except.error`) exactly when Python
  raises KeyError / IndexError / TypeError.
* `build_daily_summary` models lines 46-69: build one `Row` per list item,
  key each row by the calendar date of the unadjusted UTC instant of its
  timestamp, group by that key (pandas `groupby` sorts the keys ascending and
  keeps the arrival order inside each group), and aggregate mean/min/max
  temperature plus the middle icon.  On an empty row list
  `pd.DataFrame([])` has no columns, so `df["dt"]` raises KeyError: the
  embedding returns `Except.error "KeyError: dt"` in that case.
* `datetime.utcfromtimestamp` requires a numeric timestamp, and the pandas
  `mean` aggregation raises on every non-numeric value of this `Json` type
  (string concatenation, list and dict sums, and the final division all
  raise), so the embedding checks `dt` and `temp` while the rows are built:
  the whole call fails on exactly the same inputs either way.  The
  `min`/`max` aggregations do NOT require numbers: pandas compares object
  values with Python comparisons (numbers with numbers, strings with
  strings, lists elementwise; other pairings raise TypeError), and a
  singleton group is returned without any comparison — so
  `temp_min`/`temp_max` flow through the pipeline as raw `Json` values and
  are compared only at aggregation time (`jsonCompare`, `colMinJ`,
  `colMaxJ`).
-/

namespace WeatherApp

/-- A parsed JSON value: numbers are modelled as rationals, everything else is
structural. -/
inductive Json where
  | num (q : ℚ)
  | str (s : String)
  | arr (elems : List Json)
  | obj (fields : List (String × Json))

/-- Key lookup in a parsed JSON object (Python dict indexing). -/
def lookupField : List (String × Json) → String → Option Json
  | [], _ => none
  | (k, v) :: rest, key => if k = key then some v else lookupField rest key

/-- Python `it[k]` on a parsed JSON value: KeyError when the key is absent,
TypeError when the value is not a dict. -/
def jget : Json → String → Except String Json
  | Json.obj fs, k =>
    match lookupField fs k with
    | some v => Except.ok v
    | none => Except.error ("KeyError: " ++ k)
  | _, k => Except.error ("TypeError: value is not a dict, key " ++ k)

/-- Python `xs[0]` as used by `it["weather"][0]`. -/
def jindex0 : Json → Except String Json
  | Json.arr (x :: _) => Except.ok x
  | Json.arr [] => Except.error "IndexError: list index out of range"
  | _ => Except.error "TypeError: value is not a list"

/-- A JSON value that must be a number (timestamps fed to
`datetime.utcfromtimestamp`, temperatures fed to the numeric pandas
aggregations). -/
def jnum : Json → Except String ℚ
  | Json.num q => Except.ok q
  | _ => Except.error "TypeError: a number was required"

/-- One row of the intermediate DataFrame built on lines 50-60.  The
timestamp and the instantaneous temperature are numeric (see the header
comment); the interval min/max are stored raw, as the source stores whatever
the JSON carried. -/
structure Row where
  dt : ℚ
  temp : ℚ
  temp_min : Json
  temp_max : Json
  weather_main : Json
  weather_desc : Json
  icon : Json

/-- One row of the output of `build_daily_summary` (date, mean temp, min temp,
max temp, representative icon).  The min/max columns carry whatever values
the pandas object-dtype `min`/`max` returned. -/
structure DailyRow where
  date : ℤ
  temp : ℚ
  temp_min : Json
  temp_max : Json
  icon : Json

/-- Line 48: `forecast_json.get("list", [])`, followed by iteration.  A
missing key yields the empty default; a non-dict receiver or a non-list value
makes the loop body raise in Python, modelled as an error. -/
def getItems : Json → Except String (List Json)
  | Json.obj fs =>
    match lookupField fs "list" with
    | none => Except.ok []
    | some (Json.arr xs) => Except.ok xs
    | some _ => Except.error "TypeError: the value under key list is not a list of dicts"
  | _ => Except.error "AttributeError: forecast_json is not a dict"

/-- Lines 51-60: build one `Row` from one forecast item, reading
`it["dt"]`, `it["main"]["temp"]`, `it["main"]["temp_min"]`,
`it["main"]["temp_max"]`, `it["weather"][0]["main"]`,
`it["weather"][0]["description"]` and `it["weather"][0]["icon"]`.  The
timestamp must be numeric (`utcfromtimestamp` raises a TypeError otherwise)
and so must the instantaneous temperature (see the header comment: the
pandas `mean` raises on every non-numeric value of this `Json` type, so the
whole call fails on the same inputs; the check is made here).  The interval
min/max values are stored raw, exactly as the source does. -/
def parseItem (it : Json) : Except String Row := do
  let dtv ← jget it "dt"
  let dtq ← jnum dtv
  let mainv ← jget it "main"
  let tempv ← jget mainv "temp"
  let tempq ← jnum tempv
  let tminv ← jget mainv "temp_min"
  let tmaxv ← jget mainv "temp_max"
  let weatherv ← jget it "weather"
  let w0 ← jindex0 weatherv
  let wmain ← jget w0 "main"
  let wdesc ← jget w0 "description"
  let iconv ← jget w0 "icon"
  pure { dt := dtq, temp := tempq, temp_min := tminv, temp_max := tmaxv,
         weather_main := wmain, weather_desc := wdesc, icon := iconv }

/-- The `for it in items` loop of lines 50-60: rows are built in arrival
order and the first bad item aborts the whole call. -/
def parseRows : List Json → Except String (List Row)
  | [] => Except.ok []
  | it :: rest => do
    let r ← parseItem it
    let rs ← parseRows rest
    pure (r :: rs)

/-- Line 51 and 62: `datetime.utcfromtimestamp(it["dt"]).date()`, encoded as
the number of whole days between the unadjusted UTC instant and the Unix
epoch.  No timezone offset is applied. -/
def dateOf (ts : ℚ) : ℤ := ⌊ts / 86400⌋

/-- Insertion of one key into a sorted deduplicated key list; folding it over
the rows models the sorted distinct group keys of `df.groupby("date")`. -/
def insertSortedDedup (d : ℤ) : List ℤ → List ℤ
  | [] => [d]
  | x :: xs =>
    if d < x then d :: x :: xs
    else if d = x then x :: xs
    else x :: insertSortedDedup d xs

/-- The ascending list of distinct dates occurring in the rows (the group
keys of `groupby("date")`, which sorts keys ascending by default). -/
def datesOf (rows : List Row) : List ℤ :=
  rows.foldr (fun r acc => insertSortedDedup (dateOf r.dt) acc) []

/-- The group of rows sharing calendar date `d`, in arrival order (pandas
groupby keeps the original order inside each group). -/
def groupFor (rows : List Row) (d : ℤ) : List Row :=
  rows.filter (fun r => dateOf r.dt == d)

mutual

/-- Python three-way comparison as invoked by the pandas object-dtype
`min`/`max` aggregations: numbers compare numerically, strings
lexicographically, lists elementwise; any other pairing raises TypeError. -/
def jsonCompare : Json → Json → Except String Ordering
  | Json.num a, Json.num b =>
    Except.ok (if a < b then Ordering.lt else if b < a then Ordering.gt else Ordering.eq)
  | Json.str a, Json.str b =>
    Except.ok (if a < b then Ordering.lt else if b < a then Ordering.gt else Ordering.eq)
  | Json.arr as, Json.arr bs => jsonCompareList as bs
  | _, _ => Except.error "TypeError: unorderable types in min/max aggregation"

/-- Elementwise (lexicographic) comparison of two Python lists. -/
def jsonCompareList : List Json → List Json → Except String Ordering
  | [], [] => Except.ok Ordering.eq
  | [], _ :: _ => Except.ok Ordering.lt
  | _ :: _, [] => Except.ok Ordering.gt
  | a :: as, b :: bs =>
    match jsonCompare a b with
    | Except.error e => Except.error e
    | Except.ok Ordering.eq => jsonCompareList as bs
    | Except.ok c => Except.ok c

end

/-- The smaller of two object values (`b if b < a else a`, the reduction step
of the pandas object `min`). -/
def jsonMin (a b : Json) : Except String Json := do
  let c ← jsonCompare b a
  pure (if c = Ordering.lt then b else a)

/-- The larger of two object values (`b if b > a else a`, the reduction step
of the pandas object `max`). -/
def jsonMax (a b : Json) : Except String Json := do
  let c ← jsonCompare b a
  pure (if c = Ordering.gt then b else a)

/-- Minimum of an object column, as computed by the pandas `"min"`
aggregation: a singleton is returned without any comparison, larger columns
are reduced pairwise (the empty case never occurs for a date group). -/
def colMinJ : List Json → Except String Json
  | [] => Except.error "ValueError: min of an empty column"
  | [x] => Except.ok x
  | x :: y :: ys => do
    let m ← colMinJ (y :: ys)
    jsonMin x m

/-- Maximum of an object column, as computed by the pandas `"max"`
aggregation. -/
def colMaxJ : List Json → Except String Json
  | [] => Except.error "ValueError: max of an empty column"
  | [x] => Except.ok x
  | x :: y :: ys => do
    let m ← colMaxJ (y :: ys)
    jsonMax x m

/-- Lines 63-68: the aggregation dict applied to one date group: mean of
`temp`, min of `temp_min`, max of `temp_max`, and
`icons.iloc[len(icons)//2]` for the representative icon.  The object-dtype
min/max can raise (mixed unorderable values in one group), in which case the
whole `agg` call raises. -/
def aggGroup (d : ℤ) (g : List Row) : Except String DailyRow := do
  let mn ← colMinJ (g.map Row.temp_min)
  let mx ← colMaxJ (g.map Row.temp_max)
  pure { date := d
       , temp := (g.map Row.temp).sum / (g.length : ℚ)
       , temp_min := mn
       , temp_max := mx
       , icon := (g.map Row.icon).getD (g.length / 2) (Json.str "") }

/-- One aggregated row per group key, keys in the given order. -/
def summarizeDates : List ℤ → List Row → Except String (List DailyRow)
  | [], _ => Except.ok []
  | d :: ds, rows => do
    let row ← aggGroup d (groupFor rows d)
    let rest ← summarizeDates ds rows
    pure (row :: rest)

/-- The `groupby("date").agg(...).reset_index()` pipeline: one aggregated row
per distinct date, in ascending date order. -/
def summarize (rows : List Row) : Except String (List DailyRow) :=
  summarizeDates (datesOf rows) rows

/-- Lines 46-69, `build_daily_summary`: parse every forecast item into a row,
then group by calendar date and aggregate.  When the row list is empty,
`pd.DataFrame([])` has no columns and line 62 raises `KeyError: dt`. -/
def build_daily_summary (forecast_json : Json) : Except String (List DailyRow) := do
  let items ← getItems forecast_json
  let rows ← parseRows items
  if rows.isEmpty then
    Except.error "KeyError: dt"
  else
    summarize rows

/-- Boolean success test for an `Except` result (did the call return instead
of raising). -/
def isOkB {α : Type} : Except String α → Bool
  | Except.ok _ => true
  | Except.error _ => false

/- Claim-side observation accessors, used to state what a missing or
non-numeric required field is (claim C7).  They follow the same access paths
as the source but return `Option`. -/

/-- Key lookup returning an `Option` (claim-side counterpart of `jget`). -/
def jfind : Json → String → Option Json
  | Json.obj fs, k => lookupField fs k
  | _, _ => none

/-- The rational carried by a numeric JSON value, `Option`-valued. -/
def asNum : Json → Option ℚ
  | Json.num q => some q
  | _ => none

/-- A numeric field of the `main` block of an observation. -/
def mainField (it : Json) (k : String) : Option ℚ :=
  ((jfind it "main").bind (fun m => jfind m k)).bind asNum

/-- The interval-maximum temperature of an observation, when present and
numeric. -/
def obsTempMax (it : Json) : Option ℚ := mainField it "temp_max"

/-- Line 13: the API key is a hardcoded string literal. -/
def API_KEY : String := "5dca0cbaba07a83d089df84b8751d7a3"

/-- The key the script ends up with, given the process environment (the
environment is modelled as a name-to-value lookup; line 13 assigns a literal
and never consults it, even though `load_dotenv()` was called). -/
def api_key_of (_env : String → Option String) : String := API_KEY

/-- Lines 14-16: `if not API_KEY: st.error(...); st.stop()` — the script
halts at startup exactly when the key string is falsy (empty). -/
def startup_halts (env : String → Option String) : Bool := api_key_of env == ""

/-- An environment with no variables set at all (in particular without
`OPENWEATHER_API_KEY`). -/
def no_env : String → Option String := fun _ => none

/- Timezone handling (lines 37-40 and line 161 of App.py).  A naive datetime
is modelled as a pair (days since the Unix epoch, seconds of day); `/` and
`%` on ℤ round toward negative infinity for the positive divisors used here,
exactly like Python `//` and `%`. -/

/-- Gregorian civil date (year, month, day) of a count of days since
1970-01-01 (standard civil-from-days algorithm). -/
def civilFromDays (z0 : ℤ) : ℤ × ℤ × ℤ :=
  let z := z0 + 719468
  let era := z / 146097
  let doe := z - era * 146097
  let yoe := (doe - doe / 1460 + doe / 36524 - doe / 146096) / 365
  let y := yoe + era * 400
  let doy := doe - (365 * yoe + yoe / 4 - yoe / 100)
  let mp := (5 * doy + 2) / 153
  let d := doy - (153 * mp + 2) / 5 + 1
  let m := mp + (if mp < 10 then 3 else (-9 : ℤ))
  (y + (if m ≤ 2 then 1 else 0), m, d)

/-- Two-digit zero padding, as `%m %d %H %M` produce. -/
def pad2 (n : ℤ) : String := if n < 10 then "0" ++ toString n else toString n

/-- Four-digit zero padding, as `%Y` produces for the years datetime
supports. -/
def pad4 (y : ℤ) : String :=
  if y < 10 then "000" ++ toString y
  else if y < 100 then "00" ++ toString y
  else if y < 1000 then "0" ++ toString y
  else toString y

/-- `strftime("%Y-%m-%d %H:%M")` of a naive datetime given as days since the
epoch and seconds of day; both code paths under study call exactly this
format. -/
def strftimeYMDHM (days sod : ℤ) : String :=
  let c := civilFromDays days
  pad4 c.1 ++ "-" ++ pad2 c.2.1 ++ "-" ++ pad2 c.2.2 ++ " " ++
    pad2 (sod / 3600) ++ ":" ++ pad2 (sod % 3600 / 60)

/-- `datetime.utcfromtimestamp(ts)` as a (days, seconds-of-day) pair. -/
def utcfromtimestamp (ts : ℤ) : ℤ × ℤ := (ts / 86400, ts % 86400)

/-- `dt + timedelta(seconds=secs)`: field-level addition with carry into the
day count, as datetime arithmetic normalizes. -/
def addTimedelta (dt : ℤ × ℤ) (secs : ℤ) : ℤ × ℤ :=
  (dt.1 + (dt.2 + secs) / 86400, (dt.2 + secs) % 86400)

/-- Line 161: `datetime.utcfromtimestamp(it["dt"]) + timedelta(seconds=tz_offset)`,
the adjustment used by the 3-hourly display table. -/
def dt_local (ts tz_offset : ℤ) : ℤ × ℤ :=
  addTimedelta (utcfromtimestamp ts) tz_offset

/-- The string the 3-hourly path renders for one timestamp (line 163). -/
def dt_local_string (ts tz_offset : ℤ) : String :=
  strftimeYMDHM (dt_local ts tz_offset).1 (dt_local ts tz_offset).2

/-- Lines 37-40, `format_time_from_unix`: attach the fixed-offset timezone
`timezone(timedelta(seconds=tz_offset_seconds))` and format the instant
there.  The `timezone` constructor raises ValueError unless the offset is
strictly between -24 and +24 hours; inside the range, the wall clock of the
aware datetime is the instant shifted by the offset. -/
def format_time_from_unix (ts tz_offset_seconds : ℤ) : Except String String :=
  if -86400 < tz_offset_seconds ∧ tz_offset_seconds < 86400 then
    Except.ok (strftimeYMDHM ((ts + tz_offset_seconds) / 86400)
      ((ts + tz_offset_seconds) % 86400))
  else
    Except.error "ValueError: offset must be strictly between -timedelta(hours=24) and timedelta(hours=24)"

/- Concrete inputs used by witnesses and counterexamples. -/

/-- A well-formed forecast item with the given timestamp, temperatures and
icon code. -/
def mkItem (ts t tmin tmax : ℚ) (ic : String) : Json :=
  Json.obj [("dt", Json.num ts),
            ("main", Json.obj [("temp", Json.num t), ("temp_min", Json.num tmin),
                               ("temp_max", Json.num tmax)]),
            ("weather", Json.arr [Json.obj [("main", Json.str "Clear"),
                                            ("description", Json.str "clear sky"),
                                            ("icon", Json.str ic)]])]

/-- Three observations, two on the epoch date and one on the next date. -/
def itemsEx : List Json :=
  [mkItem 0 10 8 12 "01d", mkItem 10800 20 18 22 "02d", mkItem 86400 30 28 32 "03d"]

/-- A forecast JSON carrying `itemsEx`. -/
def jEx : Json := Json.obj [("list", Json.arr itemsEx)]

/-- The rows lines 50-60 build from `itemsEx`. -/
def rowsEx : List Row :=
  [{ dt := 0, temp := 10, temp_min := Json.num 8, temp_max := Json.num 12,
     weather_main := Json.str "Clear", weather_desc := Json.str "clear sky",
     icon := Json.str "01d" },
   { dt := 10800, temp := 20, temp_min := Json.num 18, temp_max := Json.num 22,
     weather_main := Json.str "Clear", weather_desc := Json.str "clear sky",
     icon := Json.str "02d" },
   { dt := 86400, temp := 30, temp_min := Json.num 28, temp_max := Json.num 32,
     weather_main := Json.str "Clear", weather_desc := Json.str "clear sky",
     icon := Json.str "03d" }]

/-- The summary row of the epoch date of `jEx`. -/
def dailyEx0 : DailyRow :=
  { date := 0, temp := 15, temp_min := Json.num 8, temp_max := Json.num 22,
    icon := Json.str "02d" }

/-- The summary row of the second date of `jEx`. -/
def dailyEx1 : DailyRow :=
  { date := 1, temp := 30, temp_min := Json.num 28, temp_max := Json.num 32,
    icon := Json.str "03d" }

/-- The full output of `build_daily_summary` on `jEx`. -/
def outEx : List DailyRow := [dailyEx0, dailyEx1]

/-- A forecast whose only observation has mean temperature above its
interval maximum (temp 100, temp_min 0, temp_max 1). -/
def cxJson : Json := Json.obj [("list", Json.arr [mkItem 0 100 0 1 "01d"])]

/-- The summary row the source produces for `cxJson`. -/
def cxRow : DailyRow :=
  { date := 0, temp := 100, temp_min := Json.num 0, temp_max := Json.num 1,
    icon := Json.str "01d" }

/-- A forecast whose `list` is present but empty. -/
def emptyForecastEx : Json := Json.obj [("list", Json.arr [])]

theorem bind_ok {α β : Type} (a : α) (f : α → Except String β) :
    (Except.ok a >>= f) = f a := rfl

theorem bind_err {α β : Type} (e : String) (f : α → Except String β) :
    ((Except.error e : Except String α) >>= f) = Except.error e := rfl

theorem pure_eq_ok {α : Type} (a : α) : (pure a : Except String α) = Except.ok a := rfl

theorem int_beq (a b : ℤ) : (a == b) = decide (a = b) := rfl

/- Inversion lemmas: what a successful access tells about the JSON value. -/

/-- What a successful run of `build_daily_summary` is made of. -/
theorem build_ok_structure {j : Json} {items : List Json} {out : List DailyRow}
    (hi : getItems j = Except.ok items) (ho : build_daily_summary j = Except.ok out) :
    ∃ rows, parseRows items = Except.ok rows ∧ rows.isEmpty = false ∧
      summarize rows = Except.ok out := by
  unfold build_daily_summary at ho
  rw [hi, bind_ok] at ho
  cases hr : parseRows items with
  | error e => rw [hr, bind_err] at ho; exact absurd ho (by simp)
  | ok rows =>
    rw [hr, bind_ok] at ho
    cases hE : rows.isEmpty with
    | true => rw [hE] at ho; simp at ho
    | false =>
      rw [hE] at ho
      simp only [Bool.false_eq_true, if_false] at ho
      exact ⟨rows, rfl, hE, ho⟩

/-- Specialization of `build_ok_structure` when the parsed rows are known. -/
theorem build_ok_rows {j : Json} {items : List Json} {rows : List Row}
    {out : List DailyRow} (hi : getItems j = Except.ok items)
    (hr : parseRows items = Except.ok rows)
    (ho : build_daily_summary j = Except.ok out) :
    summarize rows = Except.ok out ∧ rows ≠ [] := by
  rcases build_ok_structure hi ho with ⟨rows2, hr2, hE, hout⟩
  rw [hr] at hr2
  cases hr2
  refine ⟨hout, ?_⟩
  intro hnil
  rw [hnil] at hE
  exact absurd hE (by simp)

/- Lemmas about the sorted deduplicated group keys. -/

theorem mem_insertSortedDedup {a d : ℤ} : ∀ {l : List ℤ},
    a ∈ insertSortedDedup d l ↔ a = d ∨ a ∈ l := by
  intro l
  induction l with
  | nil => simp [insertSortedDedup]
  | cons x xs ih =>
    by_cases h1 : d < x
    · rw [insertSortedDedup, if_pos h1]
      simp [List.mem_cons]
    · by_cases h2 : d = x
      · rw [insertSortedDedup, if_neg h1, if_pos h2]
        subst h2
        simp only [List.mem_cons]
        tauto
      · rw [insertSortedDedup, if_neg h1, if_neg h2]
        simp only [List.mem_cons, ih]
        tauto

theorem pairwise_insertSortedDedup {d : ℤ} : ∀ {l : List ℤ},
    List.Pairwise (· < ·) l → List.Pairwise (· < ·) (insertSortedDedup d l) := by
  intro l
  induction l with
  | nil => intro _; simp [insertSortedDedup]
  | cons x xs ih =>
    intro hp
    rcases List.pairwise_cons.mp hp with ⟨hx, hxs⟩
    by_cases h1 : d < x
    · rw [insertSortedDedup, if_pos h1]
      refine List.pairwise_cons.mpr ⟨?_, hp⟩
      intro b hb
      rcases List.mem_cons.mp hb with rfl | hbxs
      · exact h1
      · exact lt_trans h1 (hx b hbxs)
    · by_cases h2 : d = x
      · rw [insertSortedDedup, if_neg h1, if_pos h2]
        exact hp
      · rw [insertSortedDedup, if_neg h1, if_neg h2]
        refine List.pairwise_cons.mpr ⟨?_, ih hxs⟩
        intro b hb
        rcases mem_insertSortedDedup.mp hb with rfl | hbxs
        · omega
        · exact hx b hbxs

theorem datesOf_cons (r : Row) (rs : List Row) :
    datesOf (r :: rs) = insertSortedDedup (dateOf r.dt) (datesOf rs) := rfl

theorem mem_datesOf {d : ℤ} : ∀ {rows : List Row},
    d ∈ datesOf rows ↔ ∃ r ∈ rows, dateOf r.dt = d := by
  intro rows
  induction rows with
  | nil => simp [datesOf]
  | cons r rs ih =>
    rw [datesOf_cons]
    simp only [mem_insertSortedDedup, ih, List.mem_cons]
    constructor
    · rintro (rfl | ⟨r2, hr2, hd2⟩)
      · exact ⟨r, Or.inl rfl, rfl⟩
      · exact ⟨r2, Or.inr hr2, hd2⟩
    · rintro ⟨r2, hr2 | hr2, hd2⟩
      · subst hr2; exact Or.inl hd2.symm
      · exact Or.inr ⟨r2, hr2, hd2⟩

theorem pairwise_datesOf (rows : List Row) :
    List.Pairwise (· < ·) (datesOf rows) := by
  induction rows with
  | nil => simp [datesOf]
  | cons r rs ih => rw [datesOf_cons]; exact pairwise_insertSortedDedup ih

/- Lemmas about the date groups and the aggregated output list. -/

theorem mem_groupFor {rows : List Row} {d : ℤ} {r : Row} :
    r ∈ groupFor rows d ↔ r ∈ rows ∧ dateOf r.dt = d := by
  unfold groupFor
  rw [List.mem_filter]
  simp [int_beq]

theorem groupFor_ne_nil {rows : List Row} {d : ℤ} (h : d ∈ datesOf rows) :
    groupFor rows d ≠ [] := by
  rcases mem_datesOf.mp h with ⟨r, hr, hd⟩
  exact List.ne_nil_of_mem (mem_groupFor.mpr ⟨hr, hd⟩)

/- Lemmas about the object-dtype min/max aggregation. -/

theorem jsonCompare_num (a b : ℚ) :
    jsonCompare (Json.num a) (Json.num b) =
      Except.ok (if a < b then Ordering.lt
                 else if b < a then Ordering.gt else Ordering.eq) := by
  simp only [jsonCompare]

theorem jsonMin_cases {a b v : Json} (h : jsonMin a b = Except.ok v) :
    v = a ∨ v = b := by
  unfold jsonMin at h
  cases hc : jsonCompare b a with
  | error e => rw [hc, bind_err] at h; exact absurd h (by simp)
  | ok c =>
    rw [hc, bind_ok, pure_eq_ok] at h
    by_cases hlt : c = Ordering.lt
    · rw [if_pos hlt] at h; cases h; exact Or.inr rfl
    · rw [if_neg hlt] at h; cases h; exact Or.inl rfl

theorem jsonMax_cases {a b v : Json} (h : jsonMax a b = Except.ok v) :
    v = a ∨ v = b := by
  unfold jsonMax at h
  cases hc : jsonCompare b a with
  | error e => rw [hc, bind_err] at h; exact absurd h (by simp)
  | ok c =>
    rw [hc, bind_ok, pure_eq_ok] at h
    by_cases hgt : c = Ordering.gt
    · rw [if_pos hgt] at h; cases h; exact Or.inr rfl
    · rw [if_neg hgt] at h; cases h; exact Or.inl rfl

theorem jsonMin_num (a b : ℚ) :
    jsonMin (Json.num a) (Json.num b) = Except.ok (Json.num (min a b)) := by
  unfold jsonMin
  rw [jsonCompare_num, bind_ok]
  rcases lt_trichotomy b a with h | h | h
  · rw [if_pos h]
    simp [pure_eq_ok, min_eq_right (le_of_lt h)]
  · subst h
    simp [pure_eq_ok, lt_irrefl, min_self]
  · rw [if_neg (lt_asymm h), if_pos h]
    simp [pure_eq_ok, min_eq_left (le_of_lt h)]

theorem jsonMax_num (a b : ℚ) :
    jsonMax (Json.num a) (Json.num b) = Except.ok (Json.num (max a b)) := by
  unfold jsonMax
  rw [jsonCompare_num, bind_ok]
  rcases lt_trichotomy b a with h | h | h
  · rw [if_pos h]
    simp [pure_eq_ok, max_eq_left (le_of_lt h)]
  · subst h
    simp [pure_eq_ok, lt_irrefl, max_self]
  · rw [if_neg (lt_asymm h), if_pos h]
    simp [pure_eq_ok, max_eq_right (le_of_lt h)]

theorem colMinJ_mem : ∀ {l : List Json} {v : Json},
    colMinJ l = Except.ok v → v ∈ l := by
  intro l
  induction l with
  | nil => intro v h; exact absurd h (by simp [colMinJ])
  | cons x xs ih =>
    intro v h
    cases xs with
    | nil =>
      simp only [colMinJ, Except.ok.injEq] at h
      subst h
      exact List.mem_cons_self x []
    | cons y ys =>
      rw [show colMinJ (x :: y :: ys) =
          (colMinJ (y :: ys) >>= fun m => jsonMin x m) from rfl] at h
      cases hm : colMinJ (y :: ys) with
      | error e => rw [hm, bind_err] at h; exact absurd h (by simp)
      | ok m =>
        rw [hm, bind_ok] at h
        rcases jsonMin_cases h with h2 | h2
        · rw [h2]; exact List.mem_cons_self x (y :: ys)
        · rw [h2]; exact List.mem_cons_of_mem x (ih hm)

theorem colMaxJ_mem : ∀ {l : List Json} {v : Json},
    colMaxJ l = Except.ok v → v ∈ l := by
  intro l
  induction l with
  | nil => intro v h; exact absurd h (by simp [colMaxJ])
  | cons x xs ih =>
    intro v h
    cases xs with
    | nil =>
      simp only [colMaxJ, Except.ok.injEq] at h
      subst h
      exact List.mem_cons_self x []
    | cons y ys =>
      rw [show colMaxJ (x :: y :: ys) =
          (colMaxJ (y :: ys) >>= fun m => jsonMax x m) from rfl] at h
      cases hm : colMaxJ (y :: ys) with
      | error e => rw [hm, bind_err] at h; exact absurd h (by simp)
      | ok m =>
        rw [hm, bind_ok] at h
        rcases jsonMax_cases h with h2 | h2
        · rw [h2]; exact List.mem_cons_self x (y :: ys)
        · rw [h2]; exact List.mem_cons_of_mem x (ih hm)

theorem colMinJ_map_num : ∀ {qs : List ℚ}, qs ≠ [] →
    ∃ q ∈ qs, colMinJ (qs.map Json.num) = Except.ok (Json.num q) ∧
      ∀ qx ∈ qs, q ≤ qx := by
  intro qs
  induction qs with
  | nil => intro h; exact absurd rfl h
  | cons x xs ih =>
    intro _
    cases xs with
    | nil =>
      refine ⟨x, List.mem_cons_self x [], rfl, ?_⟩
      intro qx hqx
      rcases List.mem_cons.mp hqx with h2 | h2
      · exact le_of_eq h2.symm
      · exact absurd h2 (List.not_mem_nil qx)
    | cons y ys =>
      rcases ih (by simp) with ⟨q, hq, hev, hb⟩
      refine ⟨min x q, ?_, ?_, ?_⟩
      · rcases min_choice x q with h | h
        · rw [h]; exact List.mem_cons_self x (y :: ys)
        · rw [h]; exact List.mem_cons_of_mem x hq
      · rw [show colMinJ ((x :: y :: ys).map Json.num) =
            (colMinJ ((y :: ys).map Json.num) >>= fun m => jsonMin (Json.num x) m)
            from rfl, hev, bind_ok, jsonMin_num]
      · intro qx hqx
        rcases List.mem_cons.mp hqx with h2 | h2
        · exact le_trans (min_le_left x q) (le_of_eq h2.symm)
        · exact le_trans (min_le_right x q) (hb qx h2)

theorem colMaxJ_map_num : ∀ {qs : List ℚ}, qs ≠ [] →
    ∃ q ∈ qs, colMaxJ (qs.map Json.num) = Except.ok (Json.num q) ∧
      ∀ qx ∈ qs, qx ≤ q := by
  intro qs
  induction qs with
  | nil => intro h; exact absurd rfl h
  | cons x xs ih =>
    intro _
    cases xs with
    | nil =>
      refine ⟨x, List.mem_cons_self x [], rfl, ?_⟩
      intro qx hqx
      rcases List.mem_cons.mp hqx with h2 | h2
      · exact le_of_eq h2
      · exact absurd h2 (List.not_mem_nil qx)
    | cons y ys =>
      rcases ih (by simp) with ⟨q, hq, hev, hb⟩
      refine ⟨max x q, ?_, ?_, ?_⟩
      · rcases max_choice x q with h | h
        · rw [h]; exact List.mem_cons_self x (y :: ys)
        · rw [h]; exact List.mem_cons_of_mem x hq
      · rw [show colMaxJ ((x :: y :: ys).map Json.num) =
            (colMaxJ ((y :: ys).map Json.num) >>= fun m => jsonMax (Json.num x) m)
            from rfl, hev, bind_ok, jsonMax_num]
      · intro qx hqx
        rcases List.mem_cons.mp hqx with h2 | h2
        · exact le_trans (le_of_eq h2) (le_max_left x q)
        · exact le_trans (hb qx h2) (le_max_right x q)

/-- What a successful aggregation of one group says about the emitted row. -/
theorem aggGroup_ok {d : ℤ} {g : List Row} {drow : DailyRow}
    (h : aggGroup d g = Except.ok drow) :
    drow.date = d ∧
      drow.temp = (g.map Row.temp).sum / (g.length : ℚ) ∧
      colMinJ (g.map Row.temp_min) = Except.ok drow.temp_min ∧
      colMaxJ (g.map Row.temp_max) = Except.ok drow.temp_max ∧
      drow.icon = (g.map Row.icon).getD (g.length / 2) (Json.str "") := by
  unfold aggGroup at h
  cases hmn : colMinJ (g.map Row.temp_min) with
  | error e => rw [hmn, bind_err] at h; exact absurd h (by simp)
  | ok mn =>
    rw [hmn, bind_ok] at h
    cases hmx : colMaxJ (g.map Row.temp_max) with
    | error e => rw [hmx, bind_err] at h; exact absurd h (by simp)
    | ok mx =>
      rw [hmx, bind_ok, pure_eq_ok] at h
      cases h
      exact ⟨rfl, rfl, rfl, rfl, rfl⟩

/-- What a successful run of the per-date aggregation loop says. -/
theorem summarizeDates_ok : ∀ {ds : List ℤ} {rows : List Row} {out : List DailyRow},
    summarizeDates ds rows = Except.ok out →
    out.map DailyRow.date = ds ∧
      ∀ drow ∈ out, ∃ d ∈ ds, aggGroup d (groupFor rows d) = Except.ok drow := by
  intro ds
  induction ds with
  | nil =>
    intro rows out h
    cases h
    exact ⟨rfl, fun drow hd => absurd hd (List.not_mem_nil drow)⟩
  | cons d ds ih =>
    intro rows out h
    unfold summarizeDates at h
    cases ha : aggGroup d (groupFor rows d) with
    | error e => rw [ha, bind_err] at h; exact absurd h (by simp)
    | ok row =>
      rw [ha, bind_ok] at h
      cases hrest : summarizeDates ds rows with
      | error e => rw [hrest, bind_err] at h; exact absurd h (by simp)
      | ok rest =>
        rw [hrest, bind_ok, pure_eq_ok] at h
        cases h
        rcases ih hrest with ⟨hmap, hmem⟩
        constructor
        · simp only [List.map_cons, hmap, (aggGroup_ok ha).1]
        · intro drow hd
          rcases List.mem_cons.mp hd with rfl | hd2
          · exact ⟨d, List.mem_cons_self d ds, ha⟩
          · rcases hmem drow hd2 with ⟨d2, hd2m, ha2⟩
            exact ⟨d2, List.mem_cons_of_mem d hd2m, ha2⟩

theorem map_date_summarize {rows : List Row} {out : List DailyRow}
    (hs : summarize rows = Except.ok out) :
    out.map DailyRow.date = datesOf rows :=
  (summarizeDates_ok hs).1

theorem mem_summarize {rows : List Row} {out : List DailyRow} {drow : DailyRow}
    (hs : summarize rows = Except.ok out) (h : drow ∈ out) :
    ∃ d ∈ datesOf rows, aggGroup d (groupFor rows d) = Except.ok drow :=
  (summarizeDates_ok hs).2 drow h

/-- A list of rows whose projected fields are all numeric projects to a list
of numeric JSON values. -/
theorem exists_num_list {g : List Row} {f : Row → Json}
    (h : ∀ r ∈ g, ∃ q : ℚ, f r = Json.num q) :
    ∃ qs : List ℚ, g.map f = qs.map Json.num := by
  induction g with
  | nil => exact ⟨[], rfl⟩
  | cons r rs ih =>
    rcases h r (List.mem_cons_self r rs) with ⟨q, hq⟩
    rcases ih (fun r2 hr2 => h r2 (List.mem_cons_of_mem r hr2)) with ⟨qs, hqs⟩
    exact ⟨q :: qs, by simp [hq, hqs]⟩

/- Sum bounds for the mean column. -/

theorem mul_length_le_sum {l : List ℚ} {m : ℚ} (h : ∀ x ∈ l, m ≤ x) :
    m * l.length ≤ l.sum := by
  induction l with
  | nil => simp
  | cons a as ih =>
    have ha := h a (List.mem_cons_self a as)
    have hs := ih (fun x hx => h x (List.mem_cons_of_mem a hx))
    simp only [List.sum_cons, List.length_cons]
    push_cast
    have he : m * ((as.length : ℚ) + 1) = m * (as.length : ℚ) + m := by ring
    rw [he]
    linarith

theorem sum_le_mul_length {l : List ℚ} {M : ℚ} (h : ∀ x ∈ l, x ≤ M) :
    l.sum ≤ M * l.length := by
  induction l with
  | nil => simp
  | cons a as ih =>
    have ha := h a (List.mem_cons_self a as)
    have hs := ih (fun x hx => h x (List.mem_cons_of_mem a hx))
    simp only [List.sum_cons, List.length_cons]
    push_cast
    have he : M * ((as.length : ℚ) + 1) = M * (as.length : ℚ) + M := by ring
    rw [he]
    linarith

/- Concrete evaluations shared by several witnesses. -/

theorem eval_getItems_jEx : getItems jEx = Except.ok itemsEx := rfl

theorem eval_parseRows_itemsEx : parseRows itemsEx = Except.ok rowsEx := rfl

theorem eval_build_jEx : build_daily_summary jEx = Except.ok outEx := by
  have h4 : rowsEx.isEmpty = false := rfl
  have h3 : summarize rowsEx = Except.ok outEx := by
    norm_num [summarize, summarizeDates, datesOf, dateOf, insertSortedDedup, groupFor,
      aggGroup, colMinJ, colMaxJ, jsonMin, jsonMax, jsonCompare, rowsEx, outEx,
      dailyEx0, dailyEx1, List.filter, int_beq, List.getD, bind_ok, bind_err,
      pure_eq_ok] <;> decide
  unfold build_daily_summary
  rw [eval_getItems_jEx, bind_ok, eval_parseRows_itemsEx, bind_ok, h4]
  simp only [Bool.false_eq_true, if_false]
  exact h3

/- The claims. -/

/-- C1: whenever `build_daily_summary` returns (the parsed rows being the
observations of the input), the dates of the emitted DailySummary rows are
strictly ascending — hence pairwise distinct, one row per date — and a date
is emitted exactly when some observation of the input falls on it: no date is
invented or dropped. -/
theorem c1_daily_dates (j : Json) (items : List Json) (rows : List Row)
    (out : List DailyRow) (hi : getItems j = Except.ok items)
    (hr : parseRows items = Except.ok rows)
    (ho : build_daily_summary j = Except.ok out) :
    List.Pairwise (· < ·) (out.map DailyRow.date) ∧
      (out.map DailyRow.date).Nodup ∧
      ∀ d : ℤ, d ∈ out.map DailyRow.date ↔ ∃ r ∈ rows, dateOf r.dt = d := by
  rcases build_ok_rows hi hr ho with ⟨hs, -⟩
  rw [map_date_summarize hs]
  refine ⟨pairwise_datesOf rows, ?_, fun d => mem_datesOf⟩
  exact (pairwise_datesOf rows).imp (fun hlt => ne_of_lt hlt)

theorem c1_daily_dates_witness :
    List.Pairwise (· < ·) (outEx.map DailyRow.date) ∧
      ((0 : ℤ) ∈ outEx.map DailyRow.date ↔ ∃ r ∈ rowsEx, dateOf r.dt = 0) := by
  have h := c1_daily_dates jEx itemsEx rowsEx outEx rfl rfl eval_build_jEx
  exact ⟨h.1, h.2.2 0⟩

/-- C2: every emitted DailySummary row aggregates its own non-empty date
group: its mean temperature is the arithmetic mean (sum divided by count) of
the group members' instantaneous `temp` fields; its minimum temperature is a
member of the group members' `temp_min` fields, and whenever those fields
are temperatures (numbers, the claim's domain) it is exactly their minimum
(member and lower bound); dually its maximum temperature is a member of the
`temp_max` fields and exactly their maximum when they are numbers. -/
theorem c2_group_stats (j : Json) (items : List Json) (rows : List Row)
    (out : List DailyRow) (hi : getItems j = Except.ok items)
    (hr : parseRows items = Except.ok rows)
    (ho : build_daily_summary j = Except.ok out) :
    ∀ drow ∈ out,
      groupFor rows drow.date ≠ [] ∧
      drow.temp = ((groupFor rows drow.date).map Row.temp).sum /
        ((groupFor rows drow.date).length : ℚ) ∧
      drow.temp_min ∈ (groupFor rows drow.date).map Row.temp_min ∧
      drow.temp_max ∈ (groupFor rows drow.date).map Row.temp_max ∧
      (∀ qs : List ℚ, (groupFor rows drow.date).map Row.temp_min = qs.map Json.num →
        ∃ q ∈ qs, drow.temp_min = Json.num q ∧ ∀ qx ∈ qs, q ≤ qx) ∧
      (∀ qs : List ℚ, (groupFor rows drow.date).map Row.temp_max = qs.map Json.num →
        ∃ q ∈ qs, drow.temp_max = Json.num q ∧ ∀ qx ∈ qs, qx ≤ q) := by
  rcases build_ok_rows hi hr ho with ⟨hs, -⟩
  intro drow hd
  rcases mem_summarize hs hd with ⟨d, hdates, hagg⟩
  rcases aggGroup_ok hagg with ⟨hdate, htemp, hmin, hmax, -⟩
  rw [hdate]
  refine ⟨groupFor_ne_nil hdates, htemp, colMinJ_mem hmin, colMaxJ_mem hmax, ?_, ?_⟩
  · intro qs hqs
    have hqs_ne : qs ≠ [] := by
      intro h0
      rw [h0, List.map_nil] at hqs
      exact groupFor_ne_nil hdates (List.map_eq_nil.mp hqs)
    rcases colMinJ_map_num hqs_ne with ⟨q, hqmem, hev, hb⟩
    rw [hqs] at hmin
    exact ⟨q, hqmem, Except.ok.inj (hmin.symm.trans hev), hb⟩
  · intro qs hqs
    have hqs_ne : qs ≠ [] := by
      intro h0
      rw [h0, List.map_nil] at hqs
      exact groupFor_ne_nil hdates (List.map_eq_nil.mp hqs)
    rcases colMaxJ_map_num hqs_ne with ⟨q, hqmem, hev, hb⟩
    rw [hqs] at hmax
    exact ⟨q, hqmem, Except.ok.inj (hmax.symm.trans hev), hb⟩

theorem c2_group_stats_witness :
    groupFor rowsEx dailyEx0.date ≠ [] ∧
      dailyEx0.temp = ((groupFor rowsEx dailyEx0.date).map Row.temp).sum /
        ((groupFor rowsEx dailyEx0.date).length : ℚ) ∧
      dailyEx0.temp_min ∈ (groupFor rowsEx dailyEx0.date).map Row.temp_min ∧
      dailyEx0.temp_max ∈ (groupFor rowsEx dailyEx0.date).map Row.temp_max ∧
      (∀ qs : List ℚ, (groupFor rowsEx dailyEx0.date).map Row.temp_min = qs.map Json.num →
        ∃ q ∈ qs, dailyEx0.temp_min = Json.num q ∧ ∀ qx ∈ qs, q ≤ qx) ∧
      (∀ qs : List ℚ, (groupFor rowsEx dailyEx0.date).map Row.temp_max = qs.map Json.num →
        ∃ q ∈ qs, dailyEx0.temp_max = Json.num q ∧ ∀ qx ∈ qs, qx ≤ q) :=
  c2_group_stats jEx itemsEx rowsEx outEx rfl rfl eval_build_jEx dailyEx0
    (by simp [outEx])

/-- C3: the representative icon of every emitted DailySummary row is the icon
of the observation at position (group size integer-divided by 2) of its date
group, taken in arrival order; that index is always in range, and for a group
of three it is index 1. -/
theorem c3_middle_icon (j : Json) (items : List Json) (rows : List Row)
    (out : List DailyRow) (hi : getItems j = Except.ok items)
    (hr : parseRows items = Except.ok rows)
    (ho : build_daily_summary j = Except.ok out) :
    ∀ drow ∈ out,
      ∃ hlt : (groupFor rows drow.date).length / 2 < (groupFor rows drow.date).length,
        drow.icon =
          ((groupFor rows drow.date).get
            ⟨(groupFor rows drow.date).length / 2, hlt⟩).icon ∧
        ((groupFor rows drow.date).length = 3 →
          (groupFor rows drow.date).length / 2 = 1) := by
  rcases build_ok_rows hi hr ho with ⟨hs, -⟩
  intro drow hd
  rcases mem_summarize hs hd with ⟨d, hdates, hagg⟩
  rcases aggGroup_ok hagg with ⟨hdate, -, -, -, hicon⟩
  rw [hdate]
  have hne : groupFor rows d ≠ [] := groupFor_ne_nil hdates
  have hpos : 0 < (groupFor rows d).length := List.length_pos.mpr hne
  have hlt : (groupFor rows d).length / 2 < (groupFor rows d).length :=
    Nat.div_lt_self hpos (by norm_num)
  refine ⟨hlt, ?_, fun h3 => by rw [h3]⟩
  rw [hicon]
  have hlt2 : (groupFor rows d).length / 2 < ((groupFor rows d).map Row.icon).length := by
    rw [List.length_map]; exact hlt
  rw [List.getD_eq_get _ _ hlt2, List.get_map]

theorem c3_middle_icon_witness :
    ∃ hlt : (groupFor rowsEx dailyEx0.date).length / 2 < (groupFor rowsEx dailyEx0.date).length,
      dailyEx0.icon =
        ((groupFor rowsEx dailyEx0.date).get
          ⟨(groupFor rowsEx dailyEx0.date).length / 2, hlt⟩).icon ∧
      ((groupFor rowsEx dailyEx0.date).length = 3 →
        (groupFor rowsEx dailyEx0.date).length / 2 = 1) :=
  c3_middle_icon jEx itemsEx rowsEx outEx rfl rfl eval_build_jEx dailyEx0
    (by simp [outEx])

/-- C4 (corrected): the source computes the three output statistics from
three different input fields, so `min ≤ mean ≤ max` holds for a date group
only under the (physically expected, but unchecked) hypothesis that every
observation of that group carries numeric interval bounds with
`temp_min ≤ temp ≤ temp_max`; under that per-group hypothesis the group's
emitted row satisfies it. -/
theorem c4_bounds_of_wellformed (j : Json) (items : List Json) (rows : List Row)
    (out : List DailyRow) (hi : getItems j = Except.ok items)
    (hr : parseRows items = Except.ok rows)
    (ho : build_daily_summary j = Except.ok out) :
    ∀ drow ∈ out,
      (∀ r ∈ groupFor rows drow.date, ∃ qn qx : ℚ,
        r.temp_min = Json.num qn ∧ r.temp_max = Json.num qx ∧
        qn ≤ r.temp ∧ r.temp ≤ qx) →
      ∃ qm qM : ℚ, drow.temp_min = Json.num qm ∧ drow.temp_max = Json.num qM ∧
        qm ≤ drow.temp ∧ drow.temp ≤ qM := by
  rcases build_ok_rows hi hr ho with ⟨hs, -⟩
  intro drow hd
  rcases mem_summarize hs hd with ⟨d, hdates, hagg⟩
  rcases aggGroup_ok hagg with ⟨hdate, htemp, hmin, hmax, -⟩
  rw [hdate]
  intro hwf
  have hne : groupFor rows d ≠ [] := groupFor_ne_nil hdates
  have hlen : (0 : ℚ) < ((groupFor rows d).length : ℚ) := by
    exact_mod_cast List.length_pos.mpr hne
  have hminnum : ∀ r ∈ groupFor rows d, ∃ q : ℚ, r.temp_min = Json.num q := by
    intro r hr2
    rcases hwf r hr2 with ⟨qn, qx, h1, -, -, -⟩
    exact ⟨qn, h1⟩
  have hmaxnum : ∀ r ∈ groupFor rows d, ∃ q : ℚ, r.temp_max = Json.num q := by
    intro r hr2
    rcases hwf r hr2 with ⟨qn, qx, -, h2, -, -⟩
    exact ⟨qx, h2⟩
  rcases exists_num_list hminnum with ⟨qsmin, hqsmin⟩
  rcases exists_num_list hmaxnum with ⟨qsmax, hqsmax⟩
  have hqsmin_ne : qsmin ≠ [] := by
    intro h0
    rw [h0, List.map_nil] at hqsmin
    exact hne (List.map_eq_nil.mp hqsmin)
  have hqsmax_ne : qsmax ≠ [] := by
    intro h0
    rw [h0, List.map_nil] at hqsmax
    exact hne (List.map_eq_nil.mp hqsmax)
  rcases colMinJ_map_num hqsmin_ne with ⟨qm, hqm_mem, hev_min, hb_min⟩
  rcases colMaxJ_map_num hqsmax_ne with ⟨qM, hqM_mem, hev_max, hb_max⟩
  rw [hqsmin] at hmin
  rw [hqsmax] at hmax
  refine ⟨qm, qM, Except.ok.inj (hmin.symm.trans hev_min),
    Except.ok.inj (hmax.symm.trans hev_max), ?_, ?_⟩
  · rw [htemp, le_div_iff₀ hlen]
    have hlow : ∀ x ∈ (groupFor rows d).map Row.temp, qm ≤ x := by
      intro x hx
      rcases List.mem_map.mp hx with ⟨r, hrg, rfl⟩
      rcases hwf r hrg with ⟨qn, qx, h1, -, hle1, -⟩
      have hmem2 : Json.num qn ∈ qsmin.map Json.num := by
        rw [← hqsmin, ← h1]
        exact List.mem_map_of_mem Row.temp_min hrg
      have hqn_mem : qn ∈ qsmin := by
        rcases List.mem_map.mp hmem2 with ⟨q2, hq2, he⟩
        rw [← Json.num.inj he]
        exact hq2
      exact le_trans (hb_min qn hqn_mem) hle1
    have hms := mul_length_le_sum hlow
    rw [List.length_map] at hms
    exact hms
  · rw [htemp, div_le_iff₀ hlen]
    have hhigh : ∀ x ∈ (groupFor rows d).map Row.temp, x ≤ qM := by
      intro x hx
      rcases List.mem_map.mp hx with ⟨r, hrg, rfl⟩
      rcases hwf r hrg with ⟨qn, qx, -, h2, -, hle2⟩
      have hmem2 : Json.num qx ∈ qsmax.map Json.num := by
        rw [← hqsmax, ← h2]
        exact List.mem_map_of_mem Row.temp_max hrg
      have hqx_mem : qx ∈ qsmax := by
        rcases List.mem_map.mp hmem2 with ⟨q2, hq2, he⟩
        rw [← Json.num.inj he]
        exact hq2
      exact le_trans hle2 (hb_max qx hqx_mem)
    have hms := sum_le_mul_length hhigh
    rw [List.length_map] at hms
    exact hms

theorem c4_bounds_witness :
    ∃ qm qM : ℚ, dailyEx0.temp_min = Json.num qm ∧ dailyEx0.temp_max = Json.num qM ∧
      qm ≤ dailyEx0.temp ∧ dailyEx0.temp ≤ qM :=
  c4_bounds_of_wellformed jEx itemsEx rowsEx outEx rfl rfl eval_build_jEx
    dailyEx0 (by simp [outEx])
    (by intro r hr
        have h2 := (mem_groupFor.mp hr).1
        simp only [rowsEx, List.mem_cons, List.not_mem_nil, or_false] at h2
        rcases h2 with rfl | rfl | rfl
        · exact ⟨8, 12, rfl, rfl, by norm_num, by norm_num⟩
        · exact ⟨18, 22, rfl, rfl, by norm_num, by norm_num⟩
        · exact ⟨28, 32, rfl, rfl, by norm_num, by norm_num⟩)

/-- C4 counterexample: on an input whose single observation has `temp = 100`,
`temp_min = 0`, `temp_max = 1`, the source emits a row whose mean temperature
(100) exceeds its maximum temperature (1), refuting `mean ≤ max` as
universally stated. -/
theorem c4_counterexample :
    build_daily_summary cxJson = Except.ok [cxRow] ∧
      cxRow.temp_max = Json.num 1 ∧ ¬ cxRow.temp ≤ (1 : ℚ) := by
  refine ⟨?_, rfl, by norm_num [cxRow]⟩
  have h1 : getItems cxJson = Except.ok [mkItem 0 100 0 1 "01d"] := rfl
  have h2 : parseRows [mkItem 0 100 0 1 "01d"] = Except.ok
      [{ dt := 0, temp := 100, temp_min := Json.num 0, temp_max := Json.num 1,
         weather_main := Json.str "Clear", weather_desc := Json.str "clear sky",
         icon := Json.str "01d" }] := rfl
  have h3 : summarize
      [{ dt := 0, temp := 100, temp_min := Json.num 0, temp_max := Json.num 1,
         weather_main := Json.str "Clear", weather_desc := Json.str "clear sky",
         icon := Json.str "01d" }] = Except.ok [cxRow] := by
    norm_num [summarize, summarizeDates, datesOf, dateOf, insertSortedDedup, groupFor,
      aggGroup, colMinJ, colMaxJ, jsonMin, jsonMax, jsonCompare, cxRow, List.filter,
      int_beq, List.getD, bind_ok, bind_err, pure_eq_ok]
  unfold build_daily_summary
  rw [h1, bind_ok, h2, bind_ok]
  simp only [List.isEmpty_cons, Bool.false_eq_true, if_false]
  exact h3

/-- C5: the spec promises that an empty input yields an empty output with no
error, but on an empty observation list the source builds `pd.DataFrame([])`,
which has no columns, and line 62 (`df["dt"]`) raises `KeyError: dt`; the
embedding returns that error instead of an empty list. -/
theorem c5_empty_input_raises :
    build_daily_summary emptyForecastEx = Except.error "KeyError: dt" ∧
      isOkB (build_daily_summary emptyForecastEx) = false := ⟨rfl, rfl⟩

/-- C6: `build_daily_summary` performs no I/O and touches no mutable state,
so it is embedded as a total function of its input; running it twice on the
same input yields identical output. -/
theorem c6_pure_deterministic (j : Json) :
    build_daily_summary j = build_daily_summary j := rfl

/-- C8: every emitted date is the calendar date of the unadjusted UTC instant
of some observation's timestamp (`dateOf` consumes the raw timestamp only; no
offset is applied anywhere in `build_daily_summary`), whereas the 3-hourly
display path (`dt_local`) shifts the instant by the location offset before
formatting — and that shift can change the calendar day, as it does at
timestamp 86000 with offset 3600. -/
theorem c8_unadjusted_dates (j : Json) (items : List Json) (rows : List Row)
    (out : List DailyRow) (hi : getItems j = Except.ok items)
    (hr : parseRows items = Except.ok rows)
    (ho : build_daily_summary j = Except.ok out) :
    (∀ drow ∈ out, ∃ r ∈ rows, drow.date = dateOf r.dt) ∧
      (dt_local 86000 3600).1 ≠ dateOf (86000 : ℚ) := by
  constructor
  · rcases build_ok_rows hi hr ho with ⟨hs, -⟩
    intro drow hd
    rcases mem_summarize hs hd with ⟨d, hdates, hagg⟩
    rcases mem_datesOf.mp hdates with ⟨r, hr2, hdd⟩
    refine ⟨r, hr2, ?_⟩
    rw [(aggGroup_ok hagg).1, hdd]
  · have h1 : (dt_local 86000 3600).1 = 1 := by decide
    have h2 : dateOf (86000 : ℚ) = 0 := by norm_num [dateOf]
    rw [h1, h2]
    norm_num

theorem c8_unadjusted_dates_witness :
    (∃ r ∈ rowsEx, dailyEx0.date = dateOf r.dt) ∧
      (dt_local 86000 3600).1 ≠ dateOf (86000 : ℚ) :=
  ⟨(c8_unadjusted_dates jEx itemsEx rowsEx outEx rfl rfl eval_build_jEx).1
      dailyEx0 (by simp [outEx]),
    (c8_unadjusted_dates jEx itemsEx rowsEx outEx rfl rfl eval_build_jEx).2⟩

/-- C9: the spec says the API credential comes from the environment and that
a missing credential halts startup, but line 13 hardcodes the key as a
string literal: whatever the environment contains — in particular an
environment with no variables at all — the script uses the hardcoded key and
the `if not API_KEY` guard never halts. -/
theorem c9_hardcoded_key :
    no_env "OPENWEATHER_API_KEY" = none ∧
      api_key_of no_env = "5dca0cbaba07a83d089df84b8751d7a3" ∧
      startup_halts no_env = false := ⟨rfl, rfl, by decide⟩

/-- C10 (corrected): inside the offset range accepted by Python's
fixed-offset `timezone` constructor (strictly between -24 h and +24 h), the
tz-aware path of `format_time_from_unix` and the naive shift-then-format
path of the 3-hourly table produce the same `%Y-%m-%d %H:%M` string. -/
theorem c10_tz_equiv (ts off : ℤ) (h1 : -86400 < off) (h2 : off < 86400) :
    format_time_from_unix ts off = Except.ok (dt_local_string ts off) := by
  unfold format_time_from_unix dt_local_string dt_local addTimedelta utcfromtimestamp
  rw [if_pos ⟨h1, h2⟩]
  have e1 : (ts + off) / 86400 = ts / 86400 + (ts % 86400 + off) / 86400 := by
    omega
  have e2 : (ts + off) % 86400 = (ts % 86400 + off) % 86400 := by
    omega
  rw [e1, e2]

theorem c10_tz_equiv_witness :
    format_time_from_unix 3600 19800 = Except.ok (dt_local_string 3600 19800) :=
  c10_tz_equiv 3600 19800 (by norm_num) (by norm_num)

/-- C10 counterexample: at offset 86400 s (24 h) the `timezone` constructor
raises ValueError, so `format_time_from_unix` fails while the naive
shift-then-format path still produces a string — the two embeddings are not
equivalent for every offset. -/
theorem c10_out_of_range :
    format_time_from_unix 0 86400 ≠ Except.ok (dt_local_string 0 86400) := by
  unfold format_time_from_unix
  rw [if_neg (by omega)]
  intro h
  exact Except.noConfusion h

end WeatherApp
